import Mathlib

/-!
Verification of the geospatial edge-matching and zone-assignment subsystem of
`libraries/utils/preprocessingUtils.py`.

The Python source is shallowly embedded as executable Lean definitions:

* `generateRoadNamesFile` (EdgeMatcher): for each unique (road name, geopoint)
  row, the SUMO network service is modelled as a function from the geopoint to
  the candidate `(edge, distance)` list returned by `net.getNeighboringEdges`;
  candidates are sorted by distance with a stable insertion sort (Python's
  `sorted` is stable), and the two-phase selection loop (for/else) is embedded
  as `phase1Select` / `phase2Select` over the sorted list.
* `fillMissingEdgeId` (EdgeIdBackfill): the pandas loop mutates the table while
  iterating, so the embedding threads the partially-updated table through an
  index-driven loop (`fillLoop` / `processRow`), exactly as `df.at[index, ...]`
  updates are visible to later `df[...]` lookups in the source.
* `linkEdgeId` (EdgeLinker): row-wise lookup of the first (road name, geopoint)
  match in the road-name table; unmatched rows are dropped.
* `addZones` (ZoneAssigner): zone geometries are parsed by
  `parse_custom_geo_shape` (an `Except` models the ValueError propagation);
  shapely's containment test and centroid computation are external collaborators
  and enter as function parameters; the cKDTree nearest-centroid query is
  embedded as a first-minimum search over squared euclidean distances.

Distances and coordinates are modelled over `ℤ` (only comparisons and ring
operations matter to the control flow). Python's `str.lower` is modelled by `lowerStr`, character-wise
lowering of the string's character list.
-/

namespace Bomodt

/-- Character-wise lowercase of a string; models Python's `str.lower()` as used
for the road-name comparison in `generateRoadNamesFile`. -/
def lowerStr (s : String) : String := String.mk (s.data.map Char.toLower)

/-- A SUMO network edge as seen by the matcher: identifier (`getID`), display
name (`getName`) and type classification (`getType`). External, read-only. -/
structure NetEdge where
  eid : String
  name : String
  etype : String
deriving DecidableEq, Repr

/-- The non-drivable edge types excluded by `generateRoadNamesFile`
(lines 117-119 and 124-126 of the source). -/
def nonDrivableTypes : List String :=
  ["highway.pedestrian", "highway.track", "highway.footway",
   "highway.path", "highway.cycleway", "highway.steps"]

/-- The phase-1 acceptance test of the selection loop (line 117): the edge's
lower-cased name equals the lower-cased road name, or its type is drivable. -/
def phase1Pred (roadName : String) (p : NetEdge × ℤ) : Bool :=
  lowerStr p.1.name == lowerStr roadName || !(nonDrivableTypes.contains p.1.etype)

/-- The phase-2 (for/else fallback, line 124) acceptance test: the edge's type
is drivable, regardless of name. -/
def phase2Pred (p : NetEdge × ℤ) : Bool :=
  !(nonDrivableTypes.contains p.1.etype)

/-- First element of the list satisfying `pred`; embeds both the `for ... break`
walk and the `next(... )` generator expression of the source. -/
def firstSuch (pred : NetEdge × ℤ → Bool) : List (NetEdge × ℤ) → Option (NetEdge × ℤ)
  | [] => none
  | p :: rest => if pred p then some p else firstSuch pred rest

/-- Phase 1 of the selection loop (lines 112-121). -/
def phase1Select (roadName : String) (l : List (NetEdge × ℤ)) : Option (NetEdge × ℤ) :=
  firstSuch (phase1Pred roadName) l

/-- Phase 2, the for/else fallback (lines 122-126). -/
def phase2Select (l : List (NetEdge × ℤ)) : Option (NetEdge × ℤ) :=
  firstSuch phase2Pred l

/-- Comparison key of `sorted(candidate_edges, key=lambda edge: edge[1])`. -/
def distLE (a b : NetEdge × ℤ) : Prop := a.2 ≤ b.2

instance : DecidableRel distLE := fun a b => inferInstanceAs (Decidable (a.2 ≤ b.2))

instance : IsTotal (NetEdge × ℤ) distLE := ⟨fun a b => le_total a.2 b.2⟩

instance : IsTrans (NetEdge × ℤ) distLE := ⟨fun _ _ _ h h' => le_trans h h'⟩

/-- `sorted(candidate_edges, key=lambda edge: edge[1])` (line 107): a stable
sort, ascending in the distance component. -/
def sortByDist (l : List (NetEdge × ℤ)) : List (NetEdge × ℤ) := l.insertionSort distLE

/-- The whole candidate-selection of `generateRoadNamesFile` for one row
(lines 106-126): sort by distance, walk once accepting name-match-or-drivable,
on exhaustion fall back to the first drivable candidate, else `None`. -/
def selectClosestEdge (roadName : String) (cands : List (NetEdge × ℤ)) : Option NetEdge :=
  match phase1Select roadName (sortByDist cands) with
  | some p => some p.1
  | none =>
    match phase2Select (sortByDist cands) with
    | some p => some p.1
    | none => none

/-- One row of `input_df[['Nome via', 'geopoint']]`: the two columns kept before
deduplication in `generateRoadNamesFile` (line 94). -/
structure InRow where
  nomeVia : String
  geopoint : String
deriving DecidableEq, Repr

/-- Accumulator-driven duplicate removal keeping the first occurrence. -/
def dedupAux (seen : List InRow) : List InRow → List InRow
  | [] => []
  | r :: rest =>
    if seen.contains r then dedupAux seen rest
    else r :: dedupAux (r :: seen) rest

/-- `drop_duplicates()` on the two-column frame (line 94): keeps the first
occurrence of each (road name, geopoint) pair, in order. -/
def dedupRows (rows : List InRow) : List InRow := dedupAux [] rows

/-- One row of the road-names table written by `generateRoadNamesFile` and
consumed by `fillMissingEdgeId`: road name, geopoint, optional edge id. -/
structure RoadRow where
  nomeVia : String
  geopoint : String
  edgeId : Option String
deriving DecidableEq, Repr

/-- EdgeMatcher (`generateRoadNamesFile`, lines 96-138). `net` models the SUMO
network service: it maps a geopoint to the `(edge, distance)` candidates that
`net.getNeighboringEdges(x, y, r=25)` returns for that point. Rows whose
selection yields no edge are dropped from the written table (line 135). -/
def generateRoadNamesFile (net : String → List (NetEdge × ℤ)) (rows : List InRow) :
    List RoadRow :=
  (dedupRows rows).filterMap (fun r =>
    (selectClosestEdge r.nomeVia (net r.geopoint)).map
      (fun e => { nomeVia := r.nomeVia, geopoint := r.geopoint, edgeId := some e.eid }))

/-- `df[(df['Nome via'] == name) & (df['edge_id'].notna())] ... .values[0]`
(lines 281-284): the edge id of the first row of `df` having road name `name`
and a defined edge id. -/
def findSameStreet (df : List RoadRow) (name : String) : Option String :=
  match df with
  | [] => none
  | r :: rest =>
    match r.edgeId with
    | some e => if r.nomeVia = name then some e else findSameStreet rest name
    | none => findSameStreet rest name

/-- One iteration of the `fillMissingEdgeId` loop at row `i` of the current
table: if row `i` lacks an edge id and some row shares its road name with a
defined id, copy that id into row `i` (lines 278-287). -/
def processRow (df : List RoadRow) (i : Nat) : List RoadRow :=
  match df.get? i with
  | none => df
  | some r =>
    match r.edgeId with
    | some _ => df
    | none =>
      match findSameStreet df r.nomeVia with
      | some e => df.set i { r with edgeId := some e }
      | none => df

/-- The row loop of `fillMissingEdgeId`, driven by fuel (one unit per row); the
table being iterated is the one being updated, as with `df.at` in the source. -/
def fillLoop : Nat → List RoadRow → Nat → List RoadRow
  | 0, df, _ => df
  | fuel + 1, df, i => if i < df.length then fillLoop fuel (processRow df i) (i + 1) else df

/-- EdgeIdBackfill (`fillMissingEdgeId`, lines 274-292): fill each undefined
edge id from the first same-road-name row with a defined id, scanning rows in
order over the partially-updated table. -/
def fillMissingEdgeId (df : List RoadRow) : List RoadRow :=
  fillLoop df.length df 0

/-- One row of the full sensor table handled by `linkEdgeId`; `payload` stands
for all columns other than the two join keys. -/
structure SensorRow where
  nomeVia : String
  geopoint : String
  payload : String
deriving DecidableEq, Repr

/-- `dfRoadnames.loc[(Nome via ==) & (geopoint ==), 'edge_id'] ... .values[0]`
(lines 326-336): the first road-name row matching both keys. -/
def findRoadname (roadnames : List RoadRow) (name gp : String) : Option RoadRow :=
  match roadnames with
  | [] => none
  | rn :: rest =>
    if rn.nomeVia = name ∧ rn.geopoint = gp then some rn
    else findRoadname rest name gp

/-- EdgeLinker (`linkEdgeId`, lines 319-339): keep exactly the input rows having
a (road name, geopoint) match in the road-name table, pairing each with the
first matching row's edge id; unmatched rows are dropped (line 334). -/
def linkEdgeId (df : List SensorRow) (roadnames : List RoadRow) :
    List (SensorRow × Option String) :=
  df.filterMap (fun r =>
    match findRoadname roadnames r.nomeVia r.geopoint with
    | some rn => some (r, rn.edgeId)
    | none => none)

/-- The `coordinates` field of an evaluated geo-shape descriptor: a list of
rings for polygons, a single pair for points, or a value the shapely
constructors reject. -/
inductive Coords where
  | rings : List (List (ℤ × ℤ)) → Coords
  | single : ℤ × ℤ → Coords
  | invalid : Coords
deriving DecidableEq, Repr

/-- A raw `Geo Shape` cell: either a string whose evaluation / field access
fails (`malformed`), or a dict with a `type` string and `coordinates`. -/
inductive RawShape where
  | malformed : RawShape
  | shaped : String → Coords → RawShape
deriving DecidableEq, Repr

/-- A successfully parsed shapely geometry: `Polygon(coordinates[0])` keeps only
the outer ring; `Point(coordinates)` a single pair. -/
inductive Geom where
  | polygon : List (ℤ × ℤ) → Geom
  | point : ℤ × ℤ → Geom
deriving DecidableEq, Repr

/-- `parse_custom_geo_shape` (lines 575-598): lower-case the `type` field,
build a polygon from the first ring or a point from the pair; any failure
(malformed descriptor, unusable coordinates, unsupported type) escapes as a
ValueError, modelled by `Except.error`. -/
def parse_custom_geo_shape : RawShape → Except String Geom
  | .malformed => .error "Invalid geo shape format"
  | .shaped ty coords =>
    if lowerStr ty = "polygon" then
      match coords with
      | .rings (ring0 :: _) => .ok (.polygon ring0)
      | _ => .error "Invalid geo shape format"
    else if lowerStr ty = "point" then
      match coords with
      | .single q => .ok (.point q)
      | _ => .error "Invalid geo shape format"
    else .error "Invalid geo shape format"

/-- One row of the zone file: the zone identifier column
(`Codice Area Statistica`) and the raw `Geo Shape` cell. -/
structure ZoneRecord where
  zid : String
  shape : RawShape
deriving DecidableEq, Repr

/-- `geo_shapes_df['Geo Shape'].apply(parse_custom_geo_shape)` (line 603): parse
every record; the first ValueError aborts the whole zone-set construction. -/
def buildZoneSet : List ZoneRecord → Except String (List (String × Geom))
  | [] => .ok []
  | rec :: rest =>
    match parse_custom_geo_shape rec.shape with
    | .error e => .error e
    | .ok g =>
      match buildZoneSet rest with
      | .error e => .error e
      | .ok zs => .ok ((rec.zid, g) :: zs)

/-- Line 571: the stored (lat, lon) pair is swapped to the zone geometry's
(lon, lat) convention before containment and distance computation. -/
def swapPoint (p : ℤ × ℤ) : ℤ × ℤ := (p.2, p.1)

/-- Squared euclidean distance; the cKDTree nearest query minimises the
euclidean distance, and squaring is monotone on nonnegative reals. -/
def sqDist (a b : ℤ × ℤ) : ℤ := (a.1 - b.1) ^ 2 + (a.2 - b.2) ^ 2

/-- `geo_shapes_gdf[geo_shapes_gdf.geometry.contains(point)] ... .iloc[0]`
(lines 618-622): the first zone whose geometry contains the swapped point.
`geomContains` is shapely's containment test, an external collaborator. -/
def findContaining (geomContains : Geom → ℤ × ℤ → Bool)
    (zones : List (String × Geom)) (sp : ℤ × ℤ) : Option (String × Geom) :=
  match zones with
  | [] => none
  | z :: rest => if geomContains z.2 sp then some z else findContaining geomContains rest sp

/-- The cKDTree nearest-centroid query (lines 626-635): the zone minimising the
squared distance from its centroid to the swapped point, the earliest such zone
in zone-set order on ties. `centroid` is shapely's centroid, external. -/
def nearestZone (centroid : Geom → ℤ × ℤ) (sp : ℤ × ℤ) :
    List (String × Geom) → Option ((String × Geom) × ℤ)
  | [] => none
  | z :: rest =>
    match nearestZone centroid sp rest with
    | none => some (z, sqDist (centroid z.2) sp)
    | some (b, db) =>
      if sqDist (centroid z.2) sp ≤ db then some (z, sqDist (centroid z.2) sp)
      else some (b, db)

/-- The zone identifier `addZones` assigns to one point: containment pass first
(line 618), nearest-centroid fallback for points no polygon contains
(lines 626-637); `none` only when the zone set is empty. -/
def assignZone (geomContains : Geom → ℤ × ℤ → Bool) (centroid : Geom → ℤ × ℤ)
    (zones : List (String × Geom)) (p : ℤ × ℤ) : Option String :=
  match findContaining geomContains zones (swapPoint p) with
  | some z => some z.1
  | none => (nearestZone centroid (swapPoint p) zones).map (fun q => q.1.1)

/-- ZoneAssigner (`addZones`, lines 547-642): parse the zone set (a parse
failure aborts the run with no assignment at all), then give every point
exactly one zone identifier via `assignZone`. -/
def addZones (geomContains : Geom → ℤ × ℤ → Bool) (centroid : Geom → ℤ × ℤ)
    (points : List (ℤ × ℤ)) (records : List ZoneRecord) :
    Except String (List ((ℤ × ℤ) × Option String)) :=
  match buildZoneSet records with
  | .error e => .error e
  | .ok zones => .ok (points.map (fun p => (p, assignZone geomContains centroid zones p)))


/-! ### Concrete fixtures used by the witness theorems -/

/-- A one-point network for the name-priority witness: the nearest candidate is
differently-named and non-drivable, a farther one name-matches. -/
def net_c1 : String → List (NetEdge × ℤ) := fun g =>
  if g = "44.5,11.3" then
    [(⟨"E2", "Altro", "highway.footway"⟩, 1), (⟨"E1", "via ROMA", "highway.footway"⟩, 2)]
  else []

def rows_c1 : List InRow := [⟨"Via Roma", "44.5,11.3"⟩]

/-- A network whose only candidate is differently-named and non-drivable, so
phase 1 exhausts. -/
def net_c2 : String → List (NetEdge × ℤ) := fun g =>
  if g = "44.6,11.4" then [(⟨"E9", "Altrove", "highway.footway"⟩, 2)] else []

def rows_c2 : List InRow := [⟨"Via Blu", "44.6,11.4"⟩]

def cands_c10 : List (NetEdge × ℤ) := [(⟨"E8", "Qualcosa", "highway.steps"⟩, 3)]

/-- A network answering only for the first of the two rows below. -/
def net_c9 : String → List (NetEdge × ℤ) := fun g =>
  if g = "1,1" then [(⟨"E1", "Via Verde", "highway.primary"⟩, 4)] else []

def rows_c9 : List InRow := [⟨"Via Verde", "1,1"⟩, ⟨"Via Bianca", "2,2"⟩]

def net_c5 : String → List (NetEdge × ℤ) := fun g =>
  if g = "3,3" then [(⟨"E7", "Via Rossa", "highway.secondary"⟩, 6)] else []

def rows_c5 : List InRow := [⟨"Via Rossa", "3,3"⟩]

def roadnames_c7 : List RoadRow := [⟨"Via Nera", "5,5", some "E3"⟩]

def df_c7 : List SensorRow :=
  [⟨"Via Nera", "5,5", "payload1"⟩, ⟨"Via Grigia", "6,6", "payload2"⟩]

/-- A containment test standing in for shapely: a polygon holds exactly the
points equal to its first vertex. -/
def contains_c3 : Geom → ℤ × ℤ → Bool := fun g sp =>
  match g with
  | .polygon ((a, b) :: _) => a == sp.1 && b == sp.2
  | _ => false

def centroid_c3 : Geom → ℤ × ℤ := fun _ => (0, 0)

def records_c3 : List ZoneRecord :=
  [⟨"Z1", .shaped "Polygon" (.rings [[(9, 9), (9, 10)]])⟩,
   ⟨"Z2", .shaped "polygon" (.rings [[(2, 1)]])⟩]

def zones_c3 : List (String × Geom) :=
  [("Z1", .polygon [(9, 9), (9, 10)]), ("Z2", .polygon [(2, 1)])]

def points_c3 : List (ℤ × ℤ) := [(1, 2)]

def contains_c4 : Geom → ℤ × ℤ → Bool := fun _ _ => false

/-- A centroid standing in for shapely: the first vertex of the polygon. -/
def centroid_c4 : Geom → ℤ × ℤ := fun g =>
  match g with
  | .polygon (q :: _) => q
  | _ => (0, 0)

def records_c4 : List ZoneRecord :=
  [⟨"Z1", .shaped "polygon" (.rings [[(9, 9)]])⟩,
   ⟨"Z2", .shaped "polygon" (.rings [[(2, 1)]])⟩]

def zones_c4 : List (String × Geom) :=
  [("Z1", .polygon [(9, 9)]), ("Z2", .polygon [(2, 1)])]

def points_c4 : List (ℤ × ℤ) := [(1, 2)]

def contains_c8 : Geom → ℤ × ℤ → Bool := fun _ _ => false

def centroid_c8 : Geom → ℤ × ℤ := fun _ => (0, 0)

def records_c8 : List ZoneRecord :=
  [⟨"Z1", .shaped "polygon" (.rings [[(0, 0)]])⟩, ⟨"Z9", .shaped "circle" .invalid⟩]

def points_c8 : List (ℤ × ℤ) := [(0, 0)]

/-! ### Generic list facts -/

theorem length_filterMap_add_countP {A B : Type} (f : A → Option B) (l : List A) :
    (l.filterMap f).length + l.countP (fun x => (f x).isNone) = l.length := by
  induction l with
  | nil => rfl
  | cons x l ih =>
    cases h : f x with
    | none =>
      simp only [List.filterMap_cons_none h, List.countP_cons, h, Option.isNone_none,
        List.length_cons, if_true]
      omega
    | some b =>
      simp only [List.filterMap_cons_some h, List.countP_cons, h, Option.isNone_some,
        List.length_cons, Bool.false_eq_true, if_false]
      omega

theorem get?_set_self {A : Type} (l : List A) (i : Nat) (a : A) (h : i < l.length) :
    (l.set i a).get? i = some a := by
  induction l generalizing i with
  | nil => simp at h
  | cons x xs ih =>
    cases i with
    | zero => rfl
    | succ j =>
      simp only [List.set_cons_succ, List.get?_cons_succ]
      exact ih j (by simpa using h)

theorem get?_set_other {A : Type} (l : List A) (i j : Nat) (a : A) (h : j ≠ i) :
    (l.set i a).get? j = l.get? j := by
  induction l generalizing i j with
  | nil => simp
  | cons x xs ih =>
    cases i with
    | zero =>
      cases j with
      | zero => exact absurd rfl h
      | succ k => rfl
    | succ i' =>
      cases j with
      | zero => rfl
      | succ k =>
        simp only [List.set_cons_succ, List.get?_cons_succ]
        exact ih i' k (fun hk => h (by rw [hk]))

/-! ### EdgeMatcher: selection lemmas -/

theorem firstSuch_eq_none_iff (pred : NetEdge × ℤ → Bool) (l : List (NetEdge × ℤ)) :
    firstSuch pred l = none ↔ ∀ q ∈ l, pred q = false := by
  induction l with
  | nil => simp [firstSuch]
  | cons p rest ih =>
    unfold firstSuch
    cases h : pred p with
    | true => simp [h]
    | false => simp [h, ih]

theorem firstSuch_mem (pred : NetEdge × ℤ → Bool) (l : List (NetEdge × ℤ))
    (p : NetEdge × ℤ) (h : firstSuch pred l = some p) : p ∈ l ∧ pred p = true := by
  induction l with
  | nil => simp [firstSuch] at h
  | cons x rest ih =>
    unfold firstSuch at h
    by_cases hx : pred x = true
    · rw [if_pos hx] at h
      injection h with h2
      subst h2
      exact ⟨List.mem_cons_self _ _, hx⟩
    · rw [if_neg hx] at h
      obtain ⟨hm, hp⟩ := ih h
      exact ⟨List.mem_cons_of_mem x hm, hp⟩

theorem firstSuch_first (pred : NetEdge × ℤ → Bool) (l : List (NetEdge × ℤ))
    (hs : List.Pairwise distLE l) (p : NetEdge × ℤ) (h : firstSuch pred l = some p) :
    ∀ q ∈ l, q.2 < p.2 → pred q = false := by
  induction l with
  | nil => simp [firstSuch] at h
  | cons x rest ih =>
    unfold firstSuch at h
    by_cases hx : pred x = true
    · rw [if_pos hx] at h
      injection h with h2
      subst h2
      intro q hq hlt
      rcases List.mem_cons.mp hq with hqx | hqr
      · rw [hqx] at hlt
        exact absurd hlt (lt_irrefl _)
      · have hd : distLE x q := (List.pairwise_cons.mp hs).1 q hqr
        exact absurd hlt (not_lt.mpr hd)
    · rw [if_neg hx] at h
      intro q hq hlt
      rcases List.mem_cons.mp hq with hqx | hqr
      · rw [hqx]
        exact Bool.eq_false_iff.mpr hx
      · exact ih (List.pairwise_cons.mp hs).2 h q hqr hlt

theorem mem_sortByDist (l : List (NetEdge × ℤ)) (q : NetEdge × ℤ) :
    q ∈ sortByDist l ↔ q ∈ l :=
  (List.perm_insertionSort distLE l).mem_iff

theorem sortByDist_pairwise (l : List (NetEdge × ℤ)) : List.Pairwise distLE (sortByDist l) :=
  List.sorted_insertionSort distLE l

theorem phase1Pred_eq_false_iff (roadName : String) (q : NetEdge × ℤ) :
    phase1Pred roadName q = false ↔
      lowerStr q.1.name ≠ lowerStr roadName ∧ nonDrivableTypes.contains q.1.etype = true := by
  unfold phase1Pred
  rw [Bool.or_eq_false_iff]
  constructor
  · rintro ⟨h1, h2⟩
    exact ⟨fun he => by simp [he] at h1, by simpa using h2⟩
  · rintro ⟨h1, h2⟩
    exact ⟨beq_eq_false_iff_ne.mpr h1, by simpa using h2⟩

theorem selectClosestEdge_mem (roadName : String) (cands : List (NetEdge × ℤ))
    (e : NetEdge) (h : selectClosestEdge roadName cands = some e) :
    ∃ d : ℤ, (e, d) ∈ cands := by
  unfold selectClosestEdge at h
  cases h1 : phase1Select roadName (sortByDist cands) with
  | some p =>
    rw [h1] at h
    cases h
    obtain ⟨hm, _⟩ := firstSuch_mem _ _ _ h1
    exact ⟨p.2, (mem_sortByDist cands p).mp hm⟩
  | none =>
    rw [h1] at h
    cases h2 : phase2Select (sortByDist cands) with
    | some p =>
      rw [h2] at h
      cases h
      obtain ⟨hm, _⟩ := firstSuch_mem _ _ _ h2
      exact ⟨p.2, (mem_sortByDist cands p).mp hm⟩
    | none => rw [h2] at h; cases h

theorem mem_generateRoadNamesFile (net : String → List (NetEdge × ℤ)) (rows : List InRow)
    (o : RoadRow) :
    o ∈ generateRoadNamesFile net rows ↔
      ∃ r ∈ dedupRows rows, ∃ e : NetEdge,
        selectClosestEdge r.nomeVia (net r.geopoint) = some e ∧
        o = { nomeVia := r.nomeVia, geopoint := r.geopoint, edgeId := some e.eid } := by
  unfold generateRoadNamesFile
  rw [List.mem_filterMap]
  constructor
  · rintro ⟨r, hr, hf⟩
    rw [Option.map_eq_some'] at hf
    obtain ⟨e, he, heq⟩ := hf
    exact ⟨r, hr, e, he, heq.symm⟩
  · rintro ⟨r, hr, e, he, heq⟩
    refine ⟨r, hr, ?_⟩
    rw [he, heq]
    rfl

theorem output_key_absent (net : String → List (NetEdge × ℤ)) (rows : List InRow) (r : InRow)
    (h : selectClosestEdge r.nomeVia (net r.geopoint) = none) :
    ∀ o ∈ generateRoadNamesFile net rows, ¬(o.nomeVia = r.nomeVia ∧ o.geopoint = r.geopoint) := by
  intro o ho ⟨hn, hg⟩
  obtain ⟨r', hr', e, he, heq⟩ := (mem_generateRoadNamesFile net rows o).mp ho
  have hrn : r'.nomeVia = r.nomeVia := by rw [heq] at hn; exact hn
  have hrg : r'.geopoint = r.geopoint := by rw [heq] at hg; exact hg
  have : r' = r := by
    cases r'
    cases r
    simp only at hrn hrg
    rw [hrn, hrg]
  rw [this] at he
  rw [h] at he
  cases he


/-! ### EdgeIdBackfill: lemmas about the fill loop -/

theorem findSameStreet_eq_none_iff (df : List RoadRow) (name : String) :
    findSameStreet df name = none ↔ ∀ r ∈ df, r.nomeVia = name → r.edgeId = none := by
  induction df with
  | nil => simp [findSameStreet]
  | cons r rest ih =>
    rw [findSameStreet]
    split
    · rename_i e hid
      by_cases hn : r.nomeVia = name
      · rw [if_pos hn]
        constructor
        · intro h; cases h
        · intro h
          have h2 := h r (List.mem_cons_self _ _) hn
          rw [hid] at h2
          cases h2
      · rw [if_neg hn, ih]
        constructor
        · intro h q hq hqn
          rcases List.mem_cons.mp hq with hqr | hqr
          · rw [hqr] at hqn; exact absurd hqn hn
          · exact h q hqr hqn
        · intro h q hq hqn
          exact h q (List.mem_cons_of_mem r hq) hqn
    · rename_i hid
      rw [ih]
      constructor
      · intro h q hq hqn
        rcases List.mem_cons.mp hq with hqr | hqr
        · rw [hqr]; exact hid
        · exact h q hqr hqn
      · intro h q hq hqn
        exact h q (List.mem_cons_of_mem r hq) hqn

theorem processRow_length (df : List RoadRow) (i : Nat) :
    (processRow df i).length = df.length := by
  unfold processRow
  split
  · rfl
  · split
    · rfl
    · split
      · simp [List.length_set]
      · rfl

theorem fillLoop_length (fuel : Nat) (df : List RoadRow) (i : Nat) :
    (fillLoop fuel df i).length = df.length := by
  induction fuel generalizing df i with
  | zero => rfl
  | succ fuel ih =>
    unfold fillLoop
    by_cases h : i < df.length
    · rw [if_pos h, ih, processRow_length]
    · rw [if_neg h]

theorem findSameStreet_none_processRow (df : List RoadRow) (i : Nat) (name : String)
    (h : findSameStreet df name = none) :
    findSameStreet (processRow df i) name = none := by
  unfold processRow
  cases hget : df.get? i with
  | none => exact h
  | some r =>
    simp only []
    cases hid : r.edgeId with
    | some e => exact h
    | none =>
      simp only []
      cases hf : findSameStreet df r.nomeVia with
      | none => exact h
      | some e =>
        simp only []
        have hne : r.nomeVia ≠ name := by
          intro he
          rw [he, h] at hf
          cases hf
        rw [findSameStreet_eq_none_iff]
        intro q hq hqn
        rcases List.mem_or_eq_of_mem_set hq with hq2 | hq2
        · exact (findSameStreet_eq_none_iff df name).mp h q hq2 hqn
        · rw [hq2] at hqn
          simp only at hqn
          exact absurd hqn hne

theorem processRow_get_other (df : List RoadRow) (i j : Nat) (hj : j ≠ i) :
    (processRow df i).get? j = df.get? j := by
  unfold processRow
  cases hget : df.get? i with
  | none => rfl
  | some r =>
    simp only []
    cases hid : r.edgeId with
    | some e => rfl
    | none =>
      simp only []
      cases hf : findSameStreet df r.nomeVia with
      | some e => exact get?_set_other df i j _ hj
      | none => rfl

theorem processRow_at_self (df : List RoadRow) (i : Nat) (r : RoadRow)
    (h : (processRow df i).get? i = some r) (hr : r.edgeId = none) :
    findSameStreet (processRow df i) r.nomeVia = none := by
  revert h
  unfold processRow
  cases hget : df.get? i with
  | none =>
    intro h
    rw [hget] at h
    cases h
  | some r0 =>
    simp only []
    cases hid : r0.edgeId with
    | some e =>
      intro h
      rw [hget] at h
      injection h with h2
      rw [h2] at hid
      rw [hid] at hr
      cases hr
    | none =>
      simp only []
      cases hf : findSameStreet df r0.nomeVia with
      | some e =>
        simp only []
        intro h
        have hlen : i < df.length := (List.get?_eq_some.mp hget).1
        rw [get?_set_self df i _ hlen] at h
        injection h with h2
        rw [← h2] at hr
        cases hr
      | none =>
        intro h
        rw [hget] at h
        injection h with h2
        rw [← h2]
        exact hf

theorem fillLoop_saturates (fuel : Nat) (df : List RoadRow) (i : Nat)
    (hfuel : df.length ≤ i + fuel)
    (hinv : ∀ j, j < i → ∀ r : RoadRow, df.get? j = some r → r.edgeId = none →
      findSameStreet df r.nomeVia = none) :
    ∀ r ∈ fillLoop fuel df i, r.edgeId = none →
      findSameStreet (fillLoop fuel df i) r.nomeVia = none := by
  induction fuel generalizing df i with
  | zero =>
    intro r hr hnone
    obtain ⟨j, hj⟩ := List.mem_iff_get?.mp hr
    have hjlt : j < df.length := (List.get?_eq_some.mp hj).1
    exact hinv j (by omega) r hj hnone
  | succ fuel ih =>
    unfold fillLoop
    by_cases hlt : i < df.length
    · rw [if_pos hlt]
      apply ih (processRow df i) (i + 1)
      · rw [processRow_length]
        omega
      · intro j hj r hjr hnone
        by_cases hji : j = i
        · rw [hji] at hjr
          exact processRow_at_self df i r hjr hnone
        · rw [processRow_get_other df i j hji] at hjr
          have hn := hinv j (by omega) r hjr hnone
          exact findSameStreet_none_processRow df i _ hn
    · rw [if_neg hlt]
      intro r hr hnone
      obtain ⟨j, hj⟩ := List.mem_iff_get?.mp hr
      have hjlt : j < df.length := (List.get?_eq_some.mp hj).1
      exact hinv j (by omega) r hj hnone

theorem processRow_eq_of_saturated (df : List RoadRow) (i : Nat)
    (h : ∀ r ∈ df, r.edgeId = none → findSameStreet df r.nomeVia = none) :
    processRow df i = df := by
  unfold processRow
  cases hget : df.get? i with
  | none => rfl
  | some r =>
    simp only []
    cases hid : r.edgeId with
    | some e => rfl
    | none =>
      simp only []
      cases hf : findSameStreet df r.nomeVia with
      | some e =>
        have hmem : r ∈ df := List.get?_mem hget
        rw [h r hmem hid] at hf
        cases hf
      | none => rfl

theorem fillLoop_eq_of_saturated (fuel : Nat) (df : List RoadRow) (i : Nat)
    (h : ∀ r ∈ df, r.edgeId = none → findSameStreet df r.nomeVia = none) :
    fillLoop fuel df i = df := by
  induction fuel generalizing i with
  | zero => rfl
  | succ fuel ih =>
    unfold fillLoop
    by_cases hlt : i < df.length
    · rw [if_pos hlt, processRow_eq_of_saturated df i h, ih]
    · rw [if_neg hlt]

theorem fillMissingEdgeId_saturates (df : List RoadRow) :
    ∀ r ∈ fillMissingEdgeId df, r.edgeId = none →
      findSameStreet (fillMissingEdgeId df) r.nomeVia = none := by
  unfold fillMissingEdgeId
  exact fillLoop_saturates df.length df 0 (by omega) (by intro j hj; omega)

theorem fillMissingEdgeId_eq_of_all_some (df : List RoadRow)
    (h : ∀ r ∈ df, r.edgeId.isSome) : fillMissingEdgeId df = df := by
  unfold fillMissingEdgeId
  apply fillLoop_eq_of_saturated
  intro r hr hnone
  have h2 := h r hr
  rw [hnone] at h2
  cases h2


/-! ### ZoneAssigner: lemmas -/

theorem findContaining_eq_none_iff (geomContains : Geom → ℤ × ℤ → Bool)
    (zones : List (String × Geom)) (sp : ℤ × ℤ) :
    findContaining geomContains zones sp = none ↔ ∀ z ∈ zones, geomContains z.2 sp = false := by
  induction zones with
  | nil => simp [findContaining]
  | cons z rest ih =>
    unfold findContaining
    by_cases hz : geomContains z.2 sp = true
    · rw [if_pos hz]
      constructor
      · intro h; cases h
      · intro h
        have h2 := h z (List.mem_cons_self _ _)
        rw [hz] at h2
        cases h2
    · rw [if_neg hz, ih]
      constructor
      · intro h q hq
        rcases List.mem_cons.mp hq with hqz | hqr
        · rw [hqz]; exact Bool.eq_false_iff.mpr hz
        · exact h q hqr
      · intro h q hq
        exact h q (List.mem_cons_of_mem z hq)

theorem findContaining_some (geomContains : Geom → ℤ × ℤ → Bool)
    (zones : List (String × Geom)) (sp : ℤ × ℤ) (z : String × Geom)
    (h : findContaining geomContains zones sp = some z) :
    z ∈ zones ∧ geomContains z.2 sp = true := by
  induction zones with
  | nil => simp [findContaining] at h
  | cons x rest ih =>
    unfold findContaining at h
    by_cases hx : geomContains x.2 sp = true
    · rw [if_pos hx] at h
      injection h with h2
      subst h2
      exact ⟨List.mem_cons_self _ _, hx⟩
    · rw [if_neg hx] at h
      obtain ⟨hm, hc⟩ := ih h
      exact ⟨List.mem_cons_of_mem x hm, hc⟩

theorem nearestZone_eq_none_iff (centroid : Geom → ℤ × ℤ) (sp : ℤ × ℤ)
    (zones : List (String × Geom)) :
    nearestZone centroid sp zones = none ↔ zones = [] := by
  cases zones with
  | nil => simp [nearestZone]
  | cons z0 zs =>
    unfold nearestZone
    cases h : nearestZone centroid sp zs with
    | none =>
      simp only []
      constructor
      · intro h2; cases h2
      · intro h2; cases h2
    | some bd =>
      obtain ⟨b, db⟩ := bd
      simp only []
      by_cases hle : sqDist (centroid z0.2) sp ≤ db
      · rw [if_pos hle]
        constructor
        · intro h2; cases h2
        · intro h2; cases h2
      · rw [if_neg hle]
        constructor
        · intro h2; cases h2
        · intro h2; cases h2

theorem nearestZone_spec (centroid : Geom → ℤ × ℤ) (sp : ℤ × ℤ)
    (zones : List (String × Geom)) (hne : zones ≠ []) :
    ∃ z l1 l2, zones = l1 ++ z :: l2 ∧
      nearestZone centroid sp zones = some (z, sqDist (centroid z.2) sp) ∧
      (∀ z' ∈ zones, sqDist (centroid z.2) sp ≤ sqDist (centroid z'.2) sp) ∧
      (∀ z' ∈ l1, sqDist (centroid z.2) sp < sqDist (centroid z'.2) sp) := by
  induction zones with
  | nil => exact absurd rfl hne
  | cons z0 zs ih =>
    unfold nearestZone
    cases hzs : nearestZone centroid sp zs with
    | none =>
      have hz : zs = [] := (nearestZone_eq_none_iff centroid sp zs).mp hzs
      subst hz
      refine ⟨z0, [], [], rfl, rfl, ?_, ?_⟩
      · intro z' hz'
        rcases List.mem_cons.mp hz' with h | h
        · rw [h]
        · cases h
      · intro z' hz'
        cases hz'
    | some bd =>
      obtain ⟨b, db⟩ := bd
      simp only []
      have hzs_ne : zs ≠ [] := by
        intro h
        rw [h] at hzs
        simp [nearestZone] at hzs
      obtain ⟨w, l1, l2, hdec, heq, hmin, hfirst⟩ := ih hzs_ne
      rw [heq] at hzs
      injection hzs with hzs2
      injection hzs2 with hb hdb
      subst hb
      subst hdb
      by_cases hle : sqDist (centroid z0.2) sp ≤ sqDist (centroid w.2) sp
      · rw [if_pos hle]
        refine ⟨z0, [], zs, rfl, rfl, ?_, ?_⟩
        · intro z' hz'
          rcases List.mem_cons.mp hz' with h | h
          · rw [h]
          · exact le_trans hle (hmin z' h)
        · intro z' hz'
          cases hz'
      · rw [if_neg hle]
        have hlt : sqDist (centroid w.2) sp < sqDist (centroid z0.2) sp := not_le.mp hle
        refine ⟨w, z0 :: l1, l2, by rw [hdec, List.cons_append], rfl, ?_, ?_⟩
        · intro z' hz'
          rcases List.mem_cons.mp hz' with h | h
          · rw [h]; exact le_of_lt hlt
          · exact hmin z' h
        · intro z' hz'
          rcases List.mem_cons.mp hz' with h | h
          · rw [h]; exact hlt
          · exact hfirst z' h

theorem buildZoneSet_error_of_mem (records : List ZoneRecord) (rec : ZoneRecord)
    (msg : String) (hmem : rec ∈ records)
    (h : parse_custom_geo_shape rec.shape = .error msg) :
    ∃ msg2, buildZoneSet records = .error msg2 := by
  induction records with
  | nil => cases hmem
  | cons r rest ih =>
    rcases List.mem_cons.mp hmem with hr | hr
    · subst hr
      refine ⟨msg, ?_⟩
      unfold buildZoneSet
      rw [h]
    · unfold buildZoneSet
      cases hp : parse_custom_geo_shape r.shape with
      | error e => exact ⟨e, rfl⟩
      | ok g =>
        simp only []
        obtain ⟨m2, hm2⟩ := ih hr
        rw [hm2]
        exact ⟨m2, rfl⟩

/-! ### EdgeLinker: lemmas -/

theorem findRoadname_eq_none_iff (roadnames : List RoadRow) (name gp : String) :
    findRoadname roadnames name gp = none ↔
      ∀ rn ∈ roadnames, ¬(rn.nomeVia = name ∧ rn.geopoint = gp) := by
  induction roadnames with
  | nil => simp [findRoadname]
  | cons rn rest ih =>
    unfold findRoadname
    by_cases h : rn.nomeVia = name ∧ rn.geopoint = gp
    · rw [if_pos h]
      constructor
      · intro h2; cases h2
      · intro h2
        exact absurd h (h2 rn (List.mem_cons_self _ _))
    · rw [if_neg h, ih]
      constructor
      · intro h2 q hq
        rcases List.mem_cons.mp hq with hqr | hqr
        · rw [hqr]; exact h
        · exact h2 q hqr
      · intro h2 q hq
        exact h2 q (List.mem_cons_of_mem rn hq)

theorem findRoadname_some (roadnames : List RoadRow) (name gp : String) (rn : RoadRow)
    (h : findRoadname roadnames name gp = some rn) :
    rn ∈ roadnames ∧ rn.nomeVia = name ∧ rn.geopoint = gp := by
  induction roadnames with
  | nil => simp [findRoadname] at h
  | cons x rest ih =>
    unfold findRoadname at h
    by_cases hx : x.nomeVia = name ∧ x.geopoint = gp
    · rw [if_pos hx] at h
      injection h with h2
      subst h2
      exact ⟨List.mem_cons_self _ _, hx⟩
    · rw [if_neg hx] at h
      obtain ⟨hm, hc⟩ := ih h
      exact ⟨List.mem_cons_of_mem x hm, hc⟩

theorem mem_linkEdgeId (df : List SensorRow) (roadnames : List RoadRow)
    (o : SensorRow × Option String) :
    o ∈ linkEdgeId df roadnames ↔
      ∃ r ∈ df, ∃ rn : RoadRow, findRoadname roadnames r.nomeVia r.geopoint = some rn ∧
        o = (r, rn.edgeId) := by
  unfold linkEdgeId
  rw [List.mem_filterMap]
  constructor
  · rintro ⟨r, hr, hf⟩
    cases hfr : findRoadname roadnames r.nomeVia r.geopoint with
    | none => rw [hfr] at hf; cases hf
    | some rn =>
      rw [hfr] at hf
      injection hf with h2
      exact ⟨r, hr, rn, hfr, h2.symm⟩
  · rintro ⟨r, hr, rn, hfr, heq⟩
    refine ⟨r, hr, ?_⟩
    rw [hfr, heq]


theorem option_isNone_map {A B : Type} (f : A → B) (o : Option A) :
    (o.map f).isNone = o.isNone := by cases o <;> rfl

/-! ### Claim theorems -/

/-- Claim C1: EdgeMatcher name-match priority. For every input point whose
sorted candidate list contains at least one edge whose lower-cased display name
equals the lower-cased input road name, the edge selected by
`generateRoadNamesFile` is the nearest candidate that either name-matches or is
drivable; in particular every strictly closer candidate is differently-named
and of a non-drivable type, and the selected edge id is the one recorded in the
output table for that row. -/
theorem edgeMatcher_name_match_priority
    (net : String → List (NetEdge × ℤ)) (rows : List InRow) (r : InRow)
    (hr : r ∈ dedupRows rows)
    (hname : ∃ p ∈ net r.geopoint, lowerStr p.1.name = lowerStr r.nomeVia) :
    ∃ p ∈ net r.geopoint,
      selectClosestEdge r.nomeVia (net r.geopoint) = some p.1 ∧
      phase1Pred r.nomeVia p = true ∧
      (∀ q ∈ net r.geopoint, q.2 < p.2 →
        lowerStr q.1.name ≠ lowerStr r.nomeVia ∧
          nonDrivableTypes.contains q.1.etype = true) ∧
      ({ nomeVia := r.nomeVia, geopoint := r.geopoint, edgeId := some p.1.eid } : RoadRow)
        ∈ generateRoadNamesFile net rows := by
  obtain ⟨x, hx, hxn⟩ := hname
  have hx2 : x ∈ sortByDist (net r.geopoint) := (mem_sortByDist _ _).mpr hx
  have hxp : phase1Pred r.nomeVia x = true := by
    unfold phase1Pred
    rw [Bool.or_eq_true]
    left
    exact beq_iff_eq.mpr hxn
  cases hp1 : phase1Select r.nomeVia (sortByDist (net r.geopoint)) with
  | none =>
    exfalso
    unfold phase1Select at hp1
    have hall := (firstSuch_eq_none_iff _ _).mp hp1
    have hfx := hall x hx2
    rw [hxp] at hfx
    cases hfx
  | some p =>
    unfold phase1Select at hp1
    obtain ⟨hpm, hpp⟩ := firstSuch_mem _ _ _ hp1
    have hsel : selectClosestEdge r.nomeVia (net r.geopoint) = some p.1 := by
      unfold selectClosestEdge phase1Select
      rw [hp1]
    refine ⟨p, (mem_sortByDist _ _).mp hpm, hsel, hpp, ?_, ?_⟩
    · intro q hq hlt
      have hq2 : q ∈ sortByDist (net r.geopoint) := (mem_sortByDist _ _).mpr hq
      have hf := firstSuch_first _ _ (sortByDist_pairwise _) p hp1 q hq2 hlt
      exact (phase1Pred_eq_false_iff r.nomeVia q).mp hf
    · rw [mem_generateRoadNamesFile]
      exact ⟨r, hr, p.1, hsel, rfl⟩

/-- Claim C2: EdgeMatcher two-phase fallback. For every input point, if no
candidate in distance order satisfies phase 1 (name match or drivable type),
the selected edge is whatever the phase-2 search yields: the first candidate in
distance order whose type is not in the non-drivable set; and if that search
yields nothing, the point's row is absent from the output table. -/
theorem edgeMatcher_two_phase_fallback
    (net : String → List (NetEdge × ℤ)) (rows : List InRow) (r : InRow)
    (_hr : r ∈ dedupRows rows)
    (h : phase1Select r.nomeVia (sortByDist (net r.geopoint)) = none) :
    selectClosestEdge r.nomeVia (net r.geopoint)
      = (phase2Select (sortByDist (net r.geopoint))).map (fun p => p.1) ∧
    (∀ p, phase2Select (sortByDist (net r.geopoint)) = some p →
      p ∈ net r.geopoint ∧ phase2Pred p = true ∧
      ∀ q ∈ net r.geopoint, q.2 < p.2 → nonDrivableTypes.contains q.1.etype = true) ∧
    (phase2Select (sortByDist (net r.geopoint)) = none →
      ∀ o ∈ generateRoadNamesFile net rows,
        ¬(o.nomeVia = r.nomeVia ∧ o.geopoint = r.geopoint)) := by
  refine ⟨?_, ?_, ?_⟩
  · unfold selectClosestEdge
    rw [h]
    cases h2 : phase2Select (sortByDist (net r.geopoint)) with
    | some p => rfl
    | none => rfl
  · intro p hp
    unfold phase2Select at hp
    obtain ⟨hm, hpp⟩ := firstSuch_mem _ _ _ hp
    refine ⟨(mem_sortByDist _ _).mp hm, hpp, ?_⟩
    intro q hq hlt
    have hq2 : q ∈ sortByDist (net r.geopoint) := (mem_sortByDist _ _).mpr hq
    have hf := firstSuch_first _ _ (sortByDist_pairwise _) p hp q hq2 hlt
    unfold phase2Pred at hf
    simpa using hf
  · intro h2 o ho
    refine output_key_absent net rows r ?_ o ho
    unfold selectClosestEdge
    rw [h, h2]

/-- Claim C10 (implicit): the EdgeMatcher fallback never selects. If the
phase-1 walk exhausts without selecting an edge, every candidate is both
differently-named and of a non-drivable type, so the phase-2 drivable-only
search necessarily yields nothing and the selection is `none`: an edge is only
ever selected in phase 1, and every point that reaches the fallback is
dropped. -/
theorem edgeMatcher_fallback_never_selects (roadName : String)
    (cands : List (NetEdge × ℤ))
    (h : phase1Select roadName (sortByDist cands) = none) :
    (∀ q ∈ cands, lowerStr q.1.name ≠ lowerStr roadName ∧
      nonDrivableTypes.contains q.1.etype = true) ∧
    phase2Select (sortByDist cands) = none ∧
    selectClosestEdge roadName cands = none := by
  unfold phase1Select at h
  have hall := (firstSuch_eq_none_iff _ _).mp h
  have h1 : ∀ q ∈ cands, lowerStr q.1.name ≠ lowerStr roadName ∧
      nonDrivableTypes.contains q.1.etype = true := by
    intro q hq
    exact (phase1Pred_eq_false_iff _ _).mp (hall q ((mem_sortByDist _ _).mpr hq))
  have h2 : phase2Select (sortByDist cands) = none := by
    unfold phase2Select
    rw [firstSuch_eq_none_iff]
    intro q hq
    have hf := hall q hq
    rw [phase1Pred_eq_false_iff] at hf
    unfold phase2Pred
    rw [hf.2]
    rfl
  refine ⟨h1, h2, ?_⟩
  unfold phase2Select at h2
  unfold selectClosestEdge phase1Select phase2Select
  rw [h, h2]

/-- Claim C9: EdgeMatcher drop count. Each unique (road name, point) row whose
proximity query returns zero candidates is absent from the output table, and
the output row count equals the number of unique input rows minus exactly the
number of rows for which no edge was selected. -/
theorem edgeMatcher_drop_count (net : String → List (NetEdge × ℤ)) (rows : List InRow) :
    (∀ r ∈ dedupRows rows, net r.geopoint = [] →
      selectClosestEdge r.nomeVia (net r.geopoint) = none ∧
      ∀ o ∈ generateRoadNamesFile net rows,
        ¬(o.nomeVia = r.nomeVia ∧ o.geopoint = r.geopoint)) ∧
    (generateRoadNamesFile net rows).length =
      (dedupRows rows).length -
        (dedupRows rows).countP
          (fun r => (selectClosestEdge r.nomeVia (net r.geopoint)).isNone) := by
  constructor
  · intro r hr hempty
    have hsel : selectClosestEdge r.nomeVia (net r.geopoint) = none := by
      rw [hempty]
      rfl
    exact ⟨hsel, output_key_absent net rows r hsel⟩
  · have hlen := length_filterMap_add_countP
      (fun r : InRow => (selectClosestEdge r.nomeVia (net r.geopoint)).map
        (fun e => RoadRow.mk r.nomeVia r.geopoint (some e.eid)))
      (dedupRows rows)
    simp only [option_isNone_map] at hlen
    unfold generateRoadNamesFile
    omega

/-- Claim C5: edge-identifier provenance. Every record of the output road-name
table carrying a resolved edge identifier references an edge returned by the
network service's proximity query for that record's point; the table produced
by EdgeMatcher consists only of such records, and EdgeIdBackfill leaves that
table unchanged (its rows all carry identifiers already), so the invariant
also holds after `fillMissingEdgeId`. -/
theorem edge_id_provenance (net : String → List (NetEdge × ℤ)) (rows : List InRow) :
    (∀ o ∈ generateRoadNamesFile net rows, ∀ eid : String, o.edgeId = some eid →
      ∃ p ∈ net o.geopoint, p.1.eid = eid) ∧
    fillMissingEdgeId (generateRoadNamesFile net rows) = generateRoadNamesFile net rows ∧
    (∀ o ∈ fillMissingEdgeId (generateRoadNamesFile net rows), ∀ eid : String,
      o.edgeId = some eid → ∃ p ∈ net o.geopoint, p.1.eid = eid) := by
  have h1 : ∀ o ∈ generateRoadNamesFile net rows, ∀ eid : String, o.edgeId = some eid →
      ∃ p ∈ net o.geopoint, p.1.eid = eid := by
    intro o ho eid heid
    obtain ⟨r, hr, e, he, heq⟩ := (mem_generateRoadNamesFile net rows o).mp ho
    obtain ⟨d, hd⟩ := selectClosestEdge_mem _ _ _ he
    subst heq
    simp only at heid
    injection heid with h2
    exact ⟨(e, d), hd, h2⟩
  have hfix : fillMissingEdgeId (generateRoadNamesFile net rows)
      = generateRoadNamesFile net rows := by
    apply fillMissingEdgeId_eq_of_all_some
    intro o ho
    obtain ⟨r, hr, e, he, heq⟩ := (mem_generateRoadNamesFile net rows o).mp ho
    rw [heq]
    rfl
  exact ⟨h1, hfix, by rw [hfix]; exact h1⟩

/-- Claim C6: EdgeIdBackfill idempotence. Applying `fillMissingEdgeId` twice to
any road-name table yields the same table as applying it once: after one pass,
every record with an undefined edge identifier has no same-road-name record
with a defined identifier, so the second pass changes nothing. -/
theorem fillMissingEdgeId_idempotent (df : List RoadRow) :
    fillMissingEdgeId (fillMissingEdgeId df) = fillMissingEdgeId df := by
  have hsat := fillMissingEdgeId_saturates df
  unfold fillMissingEdgeId at hsat ⊢
  exact fillLoop_eq_of_saturated _ _ _ hsat

/-- Claim C7: EdgeLinker round-trip (strict inner join). Every row of
`linkEdgeId`'s output has a (road name, geopoint) pair present in the resolved
road-name table; every input row whose pair is present yields an output row;
and every input row with no such pair is absent from the output. -/
theorem linkEdgeId_round_trip (df : List SensorRow) (roadnames : List RoadRow) :
    (∀ o ∈ linkEdgeId df roadnames,
      ∃ rn ∈ roadnames, rn.nomeVia = o.1.nomeVia ∧ rn.geopoint = o.1.geopoint) ∧
    (∀ r ∈ df, (∃ rn ∈ roadnames, rn.nomeVia = r.nomeVia ∧ rn.geopoint = r.geopoint) →
      ∃ o ∈ linkEdgeId df roadnames, o.1 = r) ∧
    (∀ r ∈ df, (∀ rn ∈ roadnames, ¬(rn.nomeVia = r.nomeVia ∧ rn.geopoint = r.geopoint)) →
      ∀ o ∈ linkEdgeId df roadnames, o.1 ≠ r) := by
  refine ⟨?_, ?_, ?_⟩
  · intro o ho
    obtain ⟨r, hr, rn, hfr, heq⟩ := (mem_linkEdgeId df roadnames o).mp ho
    obtain ⟨hm, hn, hg⟩ := findRoadname_some _ _ _ _ hfr
    refine ⟨rn, hm, ?_, ?_⟩
    · rw [heq]; exact hn
    · rw [heq]; exact hg
  · intro r hr hpair
    cases hfr : findRoadname roadnames r.nomeVia r.geopoint with
    | none =>
      exfalso
      obtain ⟨rn, hm, hn, hg⟩ := hpair
      exact (findRoadname_eq_none_iff _ _ _).mp hfr rn hm ⟨hn, hg⟩
    | some rn =>
      refine ⟨(r, rn.edgeId), ?_, rfl⟩
      rw [mem_linkEdgeId]
      exact ⟨r, hr, rn, hfr, rfl⟩
  · intro r hr hnone o ho heq
    obtain ⟨r2, hr2, rn, hfr, ho2⟩ := (mem_linkEdgeId df roadnames o).mp ho
    have hr2r : r2 = r := by rw [ho2] at heq; exact heq
    rw [hr2r] at hfr
    obtain ⟨hm, hn, hg⟩ := findRoadname_some _ _ _ _ hfr
    exact hnone rn hm ⟨hn, hg⟩

/-- Claim C3: ZoneAssigner containment priority. For every point contained (per
the swapped coordinates) in exactly one zone polygon, `addZones` assigns that
polygon's identifier, whatever the centroid function is: the containment-pass
assignment is independent of all centroid distances and is what the output
table records for that point. -/
theorem addZones_containment_priority
    (geomContains : Geom → ℤ × ℤ → Bool) (centroid : Geom → ℤ × ℤ)
    (points : List (ℤ × ℤ)) (records : List ZoneRecord)
    (zones : List (String × Geom)) (p : ℤ × ℤ) (z : String × Geom)
    (hzones : buildZoneSet records = .ok zones)
    (hp : p ∈ points)
    (hz : z ∈ zones) (hc : geomContains z.2 (swapPoint p) = true)
    (huniq : ∀ z' ∈ zones, geomContains z'.2 (swapPoint p) = true → z' = z) :
    assignZone geomContains centroid zones p = some z.1 ∧
    (∀ centroid2 : Geom → ℤ × ℤ, assignZone geomContains centroid2 zones p = some z.1) ∧
    addZones geomContains centroid points records =
      .ok (points.map (fun q => (q, assignZone geomContains centroid zones q))) ∧
    (p, some z.1) ∈ points.map (fun q => (q, assignZone geomContains centroid zones q)) := by
  have hmain : ∀ centroid2 : Geom → ℤ × ℤ,
      assignZone geomContains centroid2 zones p = some z.1 := by
    intro c2
    unfold assignZone
    cases hfc : findContaining geomContains zones (swapPoint p) with
    | none =>
      exfalso
      have hfz := (findContaining_eq_none_iff _ _ _).mp hfc z hz
      rw [hc] at hfz
      cases hfz
    | some z2 =>
      simp only []
      obtain ⟨hm2, hc2⟩ := findContaining_some _ _ _ _ hfc
      rw [huniq z2 hm2 hc2]
  refine ⟨hmain centroid, hmain, ?_, ?_⟩
  · unfold addZones
    rw [hzones]
  · rw [List.mem_map]
    exact ⟨p, hp, by rw [hmain centroid]⟩

/-- Claim C4: ZoneAssigner nearest-centroid fallback. For every point contained
in no zone polygon, `addZones` assigns the identifier of the zone whose
centroid is nearest to the coordinate-swapped point, distance ties broken by
position in zone-set order, and the output table records exactly one identifier
for that point. -/
theorem addZones_nearest_centroid_fallback
    (geomContains : Geom → ℤ × ℤ → Bool) (centroid : Geom → ℤ × ℤ)
    (points : List (ℤ × ℤ)) (records : List ZoneRecord)
    (zones : List (String × Geom)) (p : ℤ × ℤ)
    (hzones : buildZoneSet records = .ok zones)
    (hp : p ∈ points)
    (hne : zones ≠ [])
    (hout : ∀ z ∈ zones, geomContains z.2 (swapPoint p) = false) :
    ∃ z l1 l2, zones = l1 ++ z :: l2 ∧
      assignZone geomContains centroid zones p = some z.1 ∧
      (∀ z' ∈ zones,
        sqDist (centroid z.2) (swapPoint p) ≤ sqDist (centroid z'.2) (swapPoint p)) ∧
      (∀ z' ∈ l1,
        sqDist (centroid z.2) (swapPoint p) < sqDist (centroid z'.2) (swapPoint p)) ∧
      addZones geomContains centroid points records =
        .ok (points.map (fun q => (q, assignZone geomContains centroid zones q))) ∧
      (p, some z.1) ∈ points.map (fun q => (q, assignZone geomContains centroid zones q)) := by
  obtain ⟨z, l1, l2, hdec, heq, hmin, hfirst⟩ :=
    nearestZone_spec centroid (swapPoint p) zones hne
  have hassign : assignZone geomContains centroid zones p = some z.1 := by
    unfold assignZone
    rw [(findContaining_eq_none_iff _ _ _).mpr hout, heq]
    rfl
  refine ⟨z, l1, l2, hdec, hassign, hmin, hfirst, ?_, ?_⟩
  · unfold addZones
    rw [hzones]
  · rw [List.mem_map]
    exact ⟨p, hp, by rw [hassign]⟩

/-- Claim C8: fatal geometry parse. For every zone record whose geometry
descriptor is malformed or whose type field is neither polygon nor point
(case-insensitively), `parse_custom_geo_shape` raises, the zone-set
construction propagates the error, and `addZones` aborts with that error
before producing any assignment: no zone record is silently skipped. -/
theorem addZones_fatal_geometry_parse
    (geomContains : Geom → ℤ × ℤ → Bool) (centroid : Geom → ℤ × ℤ)
    (points : List (ℤ × ℤ)) (records : List ZoneRecord) (rec : ZoneRecord)
    (hmem : rec ∈ records)
    (hbad : rec.shape = RawShape.malformed ∨
      ∀ ty coords, rec.shape = RawShape.shaped ty coords →
        lowerStr ty ≠ "polygon" ∧ lowerStr ty ≠ "point") :
    (∃ msg, parse_custom_geo_shape rec.shape = .error msg) ∧
    (∃ msg, buildZoneSet records = .error msg) ∧
    (∃ msg, addZones geomContains centroid points records = .error msg) := by
  have hparse : ∃ msg, parse_custom_geo_shape rec.shape = .error msg := by
    rcases hbad with hm | hty
    · rw [hm]
      exact ⟨_, rfl⟩
    · cases hsh : rec.shape with
      | malformed => exact ⟨_, rfl⟩
      | shaped ty coords =>
        obtain ⟨hpoly, hpt⟩ := hty ty coords hsh
        simp only [parse_custom_geo_shape]
        rw [if_neg hpoly, if_neg hpt]
        exact ⟨_, rfl⟩
  obtain ⟨msg, hmsg⟩ := hparse
  obtain ⟨m2, hm2⟩ := buildZoneSet_error_of_mem records rec msg hmem hmsg
  refine ⟨⟨msg, hmsg⟩, ⟨m2, hm2⟩, ⟨m2, ?_⟩⟩
  unfold addZones
  rw [hm2]


/-! ### Witnesses -/

/-- Witness for C1 at a concrete network and row set. -/
theorem edgeMatcher_name_match_priority_witness :
    ∃ p ∈ net_c1 "44.5,11.3",
      selectClosestEdge "Via Roma" (net_c1 "44.5,11.3") = some p.1 ∧
      phase1Pred "Via Roma" p = true ∧
      (∀ q ∈ net_c1 "44.5,11.3", q.2 < p.2 →
        lowerStr q.1.name ≠ lowerStr "Via Roma" ∧
          nonDrivableTypes.contains q.1.etype = true) ∧
      ({ nomeVia := "Via Roma", geopoint := "44.5,11.3", edgeId := some p.1.eid } : RoadRow)
        ∈ generateRoadNamesFile net_c1 rows_c1 :=
  edgeMatcher_name_match_priority net_c1 rows_c1 ⟨"Via Roma", "44.5,11.3"⟩
    (by decide) (by decide)

/-- Witness for C2 at a concrete network and row set. -/
theorem edgeMatcher_two_phase_fallback_witness :
    selectClosestEdge "Via Blu" (net_c2 "44.6,11.4")
      = (phase2Select (sortByDist (net_c2 "44.6,11.4"))).map (fun p => p.1) ∧
    (∀ p, phase2Select (sortByDist (net_c2 "44.6,11.4")) = some p →
      p ∈ net_c2 "44.6,11.4" ∧ phase2Pred p = true ∧
      ∀ q ∈ net_c2 "44.6,11.4", q.2 < p.2 → nonDrivableTypes.contains q.1.etype = true) ∧
    (phase2Select (sortByDist (net_c2 "44.6,11.4")) = none →
      ∀ o ∈ generateRoadNamesFile net_c2 rows_c2,
        ¬(o.nomeVia = "Via Blu" ∧ o.geopoint = "44.6,11.4")) :=
  edgeMatcher_two_phase_fallback net_c2 rows_c2 ⟨"Via Blu", "44.6,11.4"⟩
    (by decide) (by decide)

/-- Witness for C10 at a concrete candidate list. -/
theorem edgeMatcher_fallback_never_selects_witness :
    (∀ q ∈ cands_c10, lowerStr q.1.name ≠ lowerStr "Via Gialla" ∧
      nonDrivableTypes.contains q.1.etype = true) ∧
    phase2Select (sortByDist cands_c10) = none ∧
    selectClosestEdge "Via Gialla" cands_c10 = none :=
  edgeMatcher_fallback_never_selects "Via Gialla" cands_c10 (by decide)

/-- Witness for C9: with one matched and one unmatched row, the output has one
row and the unmatched key is absent. -/
theorem edgeMatcher_drop_count_witness :
    (generateRoadNamesFile net_c9 rows_c9).length = 1 ∧
    ∀ o ∈ generateRoadNamesFile net_c9 rows_c9,
      ¬(o.nomeVia = "Via Bianca" ∧ o.geopoint = "2,2") := by
  have h := edgeMatcher_drop_count net_c9 rows_c9
  constructor
  · rw [h.2]
    decide
  · intro o ho
    exact (h.1 ⟨"Via Bianca", "2,2"⟩ (by decide) (by decide)).2 o ho

/-- Witness for C5 at a concrete network and row set. -/
theorem edge_id_provenance_witness :
    (∃ p ∈ net_c5 "3,3", p.1.eid = "E7") ∧
    fillMissingEdgeId (generateRoadNamesFile net_c5 rows_c5)
      = generateRoadNamesFile net_c5 rows_c5 := by
  have h := edge_id_provenance net_c5 rows_c5
  exact ⟨h.1 ⟨"Via Rossa", "3,3", some "E7"⟩ (by decide) "E7" rfl, h.2.1⟩

/-- Witness for C7: the matched row survives the join, the unmatched row is
dropped. -/
theorem linkEdgeId_round_trip_witness :
    (∃ o ∈ linkEdgeId df_c7 roadnames_c7,
      o.1 = (⟨"Via Nera", "5,5", "payload1"⟩ : SensorRow)) ∧
    (∀ o ∈ linkEdgeId df_c7 roadnames_c7,
      o.1 ≠ (⟨"Via Grigia", "6,6", "payload2"⟩ : SensorRow)) := by
  have h := linkEdgeId_round_trip df_c7 roadnames_c7
  constructor
  · exact h.2.1 ⟨"Via Nera", "5,5", "payload1"⟩ (by decide) (by decide)
  · intro o ho
    exact h.2.2 ⟨"Via Grigia", "6,6", "payload2"⟩ (by decide) (by decide) o ho

/-- Witness for C3: the point lies (per the stand-in containment test) in
exactly the second zone, and that zone is assigned whatever the centroids. -/
theorem addZones_containment_priority_witness :
    assignZone contains_c3 centroid_c3 zones_c3 ((1 : ℤ), (2 : ℤ)) = some "Z2" ∧
    (∀ centroid2 : Geom → ℤ × ℤ,
      assignZone contains_c3 centroid2 zones_c3 ((1 : ℤ), (2 : ℤ)) = some "Z2") ∧
    addZones contains_c3 centroid_c3 points_c3 records_c3 =
      .ok (points_c3.map (fun q => (q, assignZone contains_c3 centroid_c3 zones_c3 q))) ∧
    (((1 : ℤ), (2 : ℤ)), some "Z2")
      ∈ points_c3.map (fun q => (q, assignZone contains_c3 centroid_c3 zones_c3 q)) :=
  addZones_containment_priority contains_c3 centroid_c3 points_c3 records_c3 zones_c3
    (1, 2) ("Z2", .polygon [(2, 1)]) (by rfl) (by decide) (by decide) (by decide) (by decide)

/-- Witness for C4: the point is in no zone and the second zone's centroid is
nearer, so the fallback assigns it. -/
theorem addZones_nearest_centroid_fallback_witness :
    ∃ z l1 l2, zones_c4 = l1 ++ z :: l2 ∧
      assignZone contains_c4 centroid_c4 zones_c4 ((1 : ℤ), (2 : ℤ)) = some z.1 ∧
      (∀ z' ∈ zones_c4, sqDist (centroid_c4 z.2) (swapPoint (1, 2))
        ≤ sqDist (centroid_c4 z'.2) (swapPoint (1, 2))) ∧
      (∀ z' ∈ l1, sqDist (centroid_c4 z.2) (swapPoint (1, 2))
        < sqDist (centroid_c4 z'.2) (swapPoint (1, 2))) ∧
      addZones contains_c4 centroid_c4 points_c4 records_c4 =
        .ok (points_c4.map (fun q => (q, assignZone contains_c4 centroid_c4 zones_c4 q))) ∧
      (((1 : ℤ), (2 : ℤ)), some z.1)
        ∈ points_c4.map (fun q => (q, assignZone contains_c4 centroid_c4 zones_c4 q)) :=
  addZones_nearest_centroid_fallback contains_c4 centroid_c4 points_c4 records_c4 zones_c4
    (1, 2) (by rfl) (by decide) (by decide) (by decide)

/-- Witness for C8: a record with an unsupported geometry type aborts the whole
zone-assignment run. -/
theorem addZones_fatal_geometry_parse_witness :
    (∃ msg, parse_custom_geo_shape (RawShape.shaped "circle" Coords.invalid)
      = .error msg) ∧
    (∃ msg, buildZoneSet records_c8 = .error msg) ∧
    (∃ msg, addZones contains_c8 centroid_c8 points_c8 records_c8 = .error msg) :=
  addZones_fatal_geometry_parse contains_c8 centroid_c8 points_c8 records_c8
    ⟨"Z9", .shaped "circle" .invalid⟩ (by decide)
    (Or.inr (fun ty coords h => by
      injection h with h1 h2
      subst h1
      exact ⟨by decide, by decide⟩))

end Bomodt
